import Mathlib

/-!
Shallow embedding of the MPK document-search frontend (`frontend/src/App.js`,
latest revision). The React component state of `App` becomes an explicit
record `AppState`; each event handler becomes a pure function from the state
(plus the backend response it awaits, passed explicitly) to the new state.
JavaScript strings are Lean `String`s; the JS `Set` of expanded paths is a
`Finset String` (only membership is observable); `null`/absent values are
`Option`; a request that can fail is given its response as `Except Unit _`.
-/

/-- JS whitespace test for the characters `String.prototype.trim` removes
(ASCII subset that can occur in a query field). -/
def jsWhitespaceChar (c : Char) : Bool :=
  c = ' ' || c = '\t' || c = '\n' || c = '\r' || c = '\x0b' || c = '\x0c'

/-- Model of `String.prototype.trim`: strip leading and trailing whitespace. -/
def jsTrim (s : String) : String :=
  String.mk (((s.data.dropWhile jsWhitespaceChar).reverse.dropWhile jsWhitespaceChar).reverse)

/-- Model of `String.prototype.split(sep)` for a single-character separator,
on the underlying character list: JS semantics, so a leading separator
produces a leading empty field and `"".split(sep)` gives `[""]`. -/
def splitCharList (sep : Char) : List Char → List (List Char)
  | [] => [[]]
  | c :: cs =>
      if c = sep then [] :: splitCharList sep cs
      else
        match splitCharList sep cs with
        | [] => [[c]]
        | w :: ws => (c :: w) :: ws

/-- `path.split(sep)` as used in `handleResultClick`. -/
def jsSplit (s : String) (sep : Char) : List String :=
  (splitCharList sep s.data).map String.mk

/-- Replace the first occurrence of `pat` in a character list by `repl`
(the behaviour of JS `String.prototype.replace` with a string pattern). -/
def listReplaceFirst (s pat repl : List Char) : List Char :=
  match s with
  | [] => if pat = [] then repl else []
  | c :: cs =>
      if pat.isPrefixOf (c :: cs) then repl ++ (c :: cs).drop pat.length
      else c :: listReplaceFirst cs pat repl

/-- Model of `String.prototype.replace(pat, repl)` with a string pattern:
replaces only the first occurrence, returns the string unchanged if `pat`
does not occur. -/
def jsReplaceFirst (s pat repl : String) : String :=
  String.mk (listReplaceFirst s.data pat.data repl.data)

/-- A document as returned by the backend (`Document` in the data model). -/
structure Document where
  id : String
  name : String
  relative_path : String
  path : String
  file_type : String
  size : Nat
  updated_at : String
  content : Option String
  deriving DecidableEq, Repr

/-- One search hit; `relevance_score` is a JS number used only for display,
modelled as a rational. -/
structure SearchResult where
  document : Document
  relevance_score : Rat
  snippet : String
  deriving DecidableEq, Repr

/-- Tag of a tree node (`node.type` is the string "folder" or "file"). -/
inductive NodeType where
  | folder
  | file
  deriving DecidableEq, Repr

/-- A node of the file tree returned by `GET /api/file-tree`. -/
inductive FileNode where
  | node (path : String) (name : String) (type : NodeType)
      (children : List FileNode)

/-- `node.path`. -/
def FileNode.path : FileNode → String
  | .node p _ _ _ => p

/-- `node.name`. -/
def FileNode.name : FileNode → String
  | .node _ n _ _ => n

/-- Aggregate stats from `GET /api/stats`. -/
structure Stats where
  total_documents : Nat
  deriving DecidableEq, Repr

/-- The `useState` hooks of `App`, in source order. -/
structure AppState where
  fileTree : Option FileNode
  searchQuery : String
  searchResults : List SearchResult
  isSearching : Bool
  selectedDocument : Option Document
  stats : Option Stats
  isLoading : Bool
  selectedFilePath : String
  expandedPaths : Finset String
  previewDocument : Option Document

/-- The initial state: the `useState` initial values of `App`. -/
def initAppState : AppState :=
  { fileTree := none
    searchQuery := ""
    searchResults := []
    isSearching := false
    selectedDocument := none
    stats := none
    isLoading := true
    selectedFilePath := ""
    expandedPaths := ∅
    previewDocument := none }

/-- `expandedPaths.has(path)` (the `isExpanded` read in `FileTreeNode`). -/
def isExpanded (expanded : Finset String) (path : String) : Bool :=
  path ∈ expanded

/-- Body of `handleToggleExpanded`: copy the set, then delete `path` if
present, else add it. -/
def toggleExpanded (path : String) (expanded : Finset String) : Finset String :=
  if path ∈ expanded then expanded.erase path else insert path expanded

/-- `handleToggleExpanded` as a state transformer. -/
def handleToggleExpanded (s : AppState) (path : String) : AppState :=
  { s with expandedPaths := toggleExpanded path s.expandedPaths }

/-- A sequence of `handleToggleExpanded` calls applied to an expansion set. -/
def applyToggles (seq : List String) (expanded : Finset String) : Finset String :=
  seq.foldl (fun e p => toggleExpanded p e) expanded

/-- The ancestor-expansion loop of `handleResultClick`:
`for (i = 0; i < pathParts.length - 1; i++) { currentPath += (currentPath ? '/' : '') + pathParts[i]; newExpandedPaths.add(currentPath); }`. -/
def expandLoop : List String → String → Finset String → Finset String
  | [], _, acc => acc
  | p :: ps, cur, acc =>
      let cur' := cur ++ (if cur ≠ "" then "/" else "") ++ p
      expandLoop ps cur' (insert cur' acc)

/-- The whole ancestor-expansion block of `handleResultClick`
(`expandAncestorsOf` in the spec): split the path on `/`, then run the
accumulating loop over all parts but the last. -/
def expandAncestors (path : String) (expanded : Finset String) : Finset String :=
  expandLoop ((jsSplit path '/').dropLast) "" expanded

/-- The successive values taken by `currentPath` in the loop above, starting
from accumulator `cur`: the strings that get inserted. -/
def ancestorAcc : String → List String → List String
  | _, [] => []
  | cur, p :: ps =>
      let cur' := cur ++ (if cur ≠ "" then "/" else "") ++ p
      cur' :: ancestorAcc cur' ps

/-- The exact set of strings `expandAncestors path` inserts. -/
def ancestorInserts (path : String) : List String :=
  ancestorAcc "" ((jsSplit path '/').dropLast)

/-- The `onClose` handler passed to `DocumentPreviewMain`:
`() => setPreviewDocument(null)`. -/
def closePreview (s : AppState) : AppState :=
  { s with previewDocument := none }

/-- What the main panel shows: the five outcomes of `renderMainContent`. -/
inductive MainContent where
  | preview (doc : Document)
  | loading
  | results (rs : List SearchResult) (query : String)
  | noResults (query : String)
  | welcome
  deriving DecidableEq, Repr

/-- The decision structure of `renderMainContent`: which of the five views
is rendered, as a function of the current state. JS truthiness: a document
object is truthy, `null` falsy; `searchResults.length > 0`; a string is
truthy iff non-empty. -/
def renderMainContent (s : AppState) : MainContent :=
  match s.previewDocument with
  | some doc => .preview doc
  | none =>
      if s.isSearching then .loading
      else if 0 < s.searchResults.length then .results s.searchResults s.searchQuery
      else if s.searchQuery ≠ "" then .noResults s.searchQuery
      else .welcome

/-- `loadFileTree`, given the response of `GET /api/file-tree`: on success
store the tree, on failure log and keep the previous tree; either way the
`finally` block clears `isLoading`. -/
def loadFileTree (s : AppState) (resp : Except Unit FileNode) : AppState :=
  match resp with
  | .ok tree => { s with fileTree := some tree, isLoading := false }
  | .error _ => { s with isLoading := false }

/-- `loadStats`, given the response of `GET /api/stats`: on success store
the stats, on failure log and change nothing. -/
def loadStats (s : AppState) (resp : Except Unit Stats) : AppState :=
  match resp with
  | .ok st => { s with stats := some st }
  | .error _ => s

/-- `loadDocumentByPath`, given the response of
`GET /api/documents/path/{relativePath}`: the document on success, `null`
(logged) on any error, a not-found response included. -/
def loadDocumentByPath (resp : Except Unit Document) : Option Document :=
  match resp with
  | .ok d => some d
  | .error _ => none

/-- `handleSearch`, given the response of `POST /api/search` it would await.
Result: the final state once the handler has run to completion, paired with
whether a request was sent at all. An empty-after-trim query clears the
results and returns before any request or `setIsSearching` call; otherwise
`isSearching` is true strictly during the await and the `finally` block has
reset it to `false` in the final state; a missing `results` field
(`response.data.results || []`) and a failed request both yield `[]`. -/
def handleSearch (s : AppState) (resp : Except Unit (Option (List SearchResult))) :
    AppState × Bool :=
  if jsTrim s.searchQuery = "" then
    ({ s with searchResults := [] }, false)
  else
    match resp with
    | .ok rs => ({ s with searchResults := rs.getD [], isSearching := false }, true)
    | .error _ => ({ s with searchResults := [], isSearching := false }, true)

/-- The corpus-root prefix `handleFileSelect` strips from a node's path. -/
def corpusRoot : String := "/var/www/html/MPK/doc/"

/-- The events of the file-selection flow. `selectFile node` is the
synchronous prefix of `handleFileSelect` (highlight the node, issue the
document request); `resolveDocument idx resp` is the resumption of the
`await` for the `idx`-th issued request with response `resp`. The
continuation in `handleFileSelect` applies its response without consulting
which request it answers — `idx` only records which pending request
resolved, so that traces can be read off. -/
inductive AppEvent where
  | selectFile (node : FileNode)
  | resolveDocument (idx : Nat) (resp : Except Unit Document)

/-- App state together with the relative paths requested from
`GET /api/documents/path/…`, in issue order. -/
structure TracedState where
  app : AppState
  docRequests : List String

/-- One event step of the file-selection flow, read off `handleFileSelect`:
`selectFile` runs `setSelectedFilePath(node.path)` and computes
`node.path.replace('/var/www/html/MPK/doc/', '')` as the request key;
`resolveDocument` runs `if (document) setPreviewDocument(document)` on the
value `loadDocumentByPath` returns for the response. -/
def appStep (t : TracedState) (e : AppEvent) : TracedState :=
  match e with
  | .selectFile node =>
      { app := { t.app with selectedFilePath := node.path }
        docRequests := t.docRequests ++ [jsReplaceFirst node.path corpusRoot ""] }
  | .resolveDocument _ resp =>
      match loadDocumentByPath resp with
      | some d => { t with app := { t.app with previewDocument := some d } }
      | none => t

/-- Run a sequence of file-selection events. -/
def appRun (t : TracedState) (es : List AppEvent) : TracedState :=
  es.foldl appStep t

/-- `handleResultClick(result)`: highlight the document's path, expand its
ancestors, and preview the embedded document, all in one synchronous
handler. The handler contains no request, so `docRequests` is untouched. -/
def handleResultClick (t : TracedState) (result : SearchResult) : TracedState :=
  { app := { t.app with
      selectedFilePath := result.document.path
      expandedPaths := expandAncestors result.document.path t.app.expandedPaths
      previewDocument := some result.document }
    docRequests := t.docRequests }

/-- The observable effect of `triggerRescan` on scheduled work: pending
`setTimeout` delays (ms) not yet fired, and how many tree / stats reloads
have run. -/
structure RescanState where
  pendingReloads : List Nat
  treeReloads : Nat
  statsReloads : Nat
  deriving DecidableEq, Repr

/-- `triggerRescan()`, given the response of the awaited `POST /api/scan`:
on success, schedule one `setTimeout` of 2000 ms that will reload the tree
and the stats; on failure, log and schedule nothing. Existing timers are
never cancelled. -/
def triggerRescan (st : RescanState) (scanResp : Except Unit Unit) : RescanState :=
  match scanResp with
  | .ok _ => { st with pendingReloads := st.pendingReloads ++ [2000] }
  | .error _ => st

/-- Fire the oldest pending rescan timer: its callback calls `loadFileTree()`
and `loadStats()`, one reload of each. -/
def fireRescanTimer (st : RescanState) : RescanState :=
  match st.pendingReloads with
  | [] => st
  | _ :: rest =>
      { pendingReloads := rest
        treeReloads := st.treeReloads + 1
        statsReloads := st.statsReloads + 1 }

/-! ### Helper lemmas -/

theorem isPrefixOf_append_self (l r : List Char) : l.isPrefixOf (l ++ r) = true := by
  induction l with
  | nil => simp [List.isPrefixOf]
  | cons c cs ih => simp [List.isPrefixOf, ih]

theorem listReplaceFirst_append (pat rest repl : List Char) :
    listReplaceFirst (pat ++ rest) pat repl = repl ++ rest := by
  cases pat with
  | nil =>
      cases rest with
      | nil => simp [listReplaceFirst]
      | cons c cs => simp [listReplaceFirst, List.isPrefixOf]
  | cons c ps =>
      show listReplaceFirst (c :: (ps ++ rest)) (c :: ps) repl = repl ++ rest
      simp [listReplaceFirst, isPrefixOf_append_self (c :: ps) rest, List.drop_left]

theorem jsReplaceFirst_append (p rest repl : String) :
    jsReplaceFirst (p ++ rest) p repl = repl ++ rest := by
  cases p with
  | mk pd =>
      cases rest with
      | mk rd =>
          cases repl with
          | mk ld =>
              show String.mk (listReplaceFirst (pd ++ rd) pd ld) = String.mk (ld ++ rd)
              rw [listReplaceFirst_append]

theorem mem_toggleExpanded_self (p : String) (s : Finset String) :
    p ∈ toggleExpanded p s ↔ p ∉ s := by
  unfold toggleExpanded
  by_cases h : p ∈ s <;> simp [h]

theorem mem_toggleExpanded_ne (q p : String) (s : Finset String) (h : q ≠ p) :
    p ∈ toggleExpanded q s ↔ p ∈ s := by
  unfold toggleExpanded
  by_cases hq : q ∈ s <;>
    simp [hq, Finset.mem_erase, Finset.mem_insert, Ne.symm h, h]

theorem mem_applyToggles (seq : List String) (s0 : Finset String) (p : String) :
    p ∈ applyToggles seq s0 ↔ (seq.count p % 2 = 1 ↔ p ∉ s0) := by
  induction seq generalizing s0 with
  | nil => simp [applyToggles]
  | cons q rest ih =>
      have hstep : applyToggles (q :: rest) s0 = applyToggles rest (toggleExpanded q s0) := rfl
      rw [hstep, ih]
      by_cases hqp : q = p
      · subst hqp
        have hcount : (q :: rest).count q = rest.count q + 1 := List.count_cons_self q rest
        have hpar : ((rest.count q + 1) % 2 = 1) ↔ ¬ (rest.count q % 2 = 1) := by omega
        rw [hcount]
        simp only [mem_toggleExpanded_self, hpar]
        tauto
      · have hcount : (q :: rest).count p = rest.count p := by
          simp [List.count_cons, hqp]
        rw [hcount]
        simp [mem_toggleExpanded_ne q p s0 hqp]

theorem mem_expandLoop (parts : List String) (cur : String) (acc : Finset String)
    (x : String) :
    x ∈ expandLoop parts cur acc ↔ x ∈ ancestorAcc cur parts ∨ x ∈ acc := by
  induction parts generalizing cur acc with
  | nil => simp [expandLoop, ancestorAcc]
  | cons p ps ih =>
      simp only [expandLoop, ancestorAcc, ih, Finset.mem_insert, List.mem_cons]
      tauto

theorem mem_expandAncestors (path : String) (E : Finset String) (x : String) :
    x ∈ expandAncestors path E ↔ x ∈ ancestorInserts path ∨ x ∈ E := by
  unfold expandAncestors ancestorInserts
  exact mem_expandLoop _ _ _ _

/-! ### Concrete fixtures used by counterexamples and witnesses -/

/-- A document sitting at the absolute path "/a/b/c.txt". -/
def cDoc : Document :=
  { id := "d1"
    name := "c.txt"
    relative_path := "a/b/c.txt"
    path := "/a/b/c.txt"
    file_type := "txt"
    size := 10
    updated_at := "2024-01-01"
    content := some "hello" }

/-- A search result embedding `cDoc`. -/
def cResult : SearchResult :=
  { document := cDoc, relevance_score := 1, snippet := "…c…" }

/-! ### Claims -/

/-- C5: for every path `p`, applying any toggle sequence from the empty set
leaves `p` expanded exactly when the number of `toggle(p)` calls in the
sequence is odd; with an arbitrary initial set, the parity is XOR-ed onto
the initial membership; and a single toggle of a different path `q ≠ p`
never changes `isExpanded(p)`. -/
theorem toggle_parity_independence (seq : List String) (p q : String)
    (s0 : Finset String) :
    (isExpanded (applyToggles seq ∅) p = decide (seq.count p % 2 = 1))
  ∧ (isExpanded (applyToggles seq s0) p
       = xor (decide (seq.count p % 2 = 1)) (isExpanded s0 p))
  ∧ (q ≠ p → isExpanded (toggleExpanded q s0) p = isExpanded s0 p) := by
  have h2 : ∀ t : Finset String, isExpanded (applyToggles seq t) p
      = xor (decide (seq.count p % 2 = 1)) (isExpanded t p) := by
    intro t
    unfold isExpanded
    by_cases hc : seq.count p % 2 = 1 <;> by_cases hm : p ∈ t <;>
      simp [mem_applyToggles, hc, hm]
  refine ⟨?_, h2 s0, ?_⟩
  · simp [h2 ∅, isExpanded, mem_applyToggles]
  · intro h
    simp [isExpanded, mem_toggleExpanded_ne q p s0 h]

/-- Witness for C5: with the toggle sequence `["x", "y", "x"]`, path "x"
ends expanded (odd count), and a toggle of "y" from the empty set leaves
`isExpanded("x")` unchanged. -/
theorem toggle_parity_independence_witness :
    (isExpanded (applyToggles ["x", "y", "x"] ∅) "x"
       = decide ((["x", "y", "x"] : List String).count "x" % 2 = 1))
  ∧ isExpanded (toggleExpanded "y" (∅ : Finset String)) "x"
       = isExpanded (∅ : Finset String) "x" :=
  ⟨(toggle_parity_independence ["x", "y", "x"] "x" "y" ∅).1,
   (toggle_parity_independence ["x", "y", "x"] "x" "y" ∅).2.2 (by decide)⟩

/-- C3 counterexample: expanding the ancestors of "/a/b/c.txt" from the
empty set leaves `isExpanded("/a")` and `isExpanded("/a/b")` false — the
loop joins path parts with no leading separator, so it inserts "a" and
"a/b" (and ""), not the proper ancestors "/a" and "/a/b". -/
theorem expandAncestors_slash_counterexample :
    isExpanded (expandAncestors "/a/b/c.txt" ∅) "/a" = false
  ∧ isExpanded (expandAncestors "/a/b/c.txt" ∅) "/a/b" = false
  ∧ isExpanded (expandAncestors "/a/b/c.txt" ∅) "a" = true
  ∧ isExpanded (expandAncestors "/a/b/c.txt" ∅) "a/b" = true
  ∧ isExpanded (expandAncestors "/a/b/c.txt" ∅) "" = true := by
  decide

/-- C3 (amended): `expandAncestors "/a/b/c.txt"` inserts exactly the strings
"", "a" and "a/b" — the slash-boundary prefixes of the path joined with no
separator while the accumulator is still empty, i.e. the proper ancestors
with the leading slash dropped, plus the empty string. Membership of the
target "/a/b/c.txt", of the true ancestor "/a", and of every string other
than the three inserted ones, is unchanged. -/
theorem expandAncestors_amended (E : Finset String) (x : String) :
    (x ∈ expandAncestors "/a/b/c.txt" E ↔ x = "" ∨ x = "a" ∨ x = "a/b" ∨ x ∈ E)
  ∧ (isExpanded (expandAncestors "/a/b/c.txt" E) "a" = true)
  ∧ (isExpanded (expandAncestors "/a/b/c.txt" E) "a/b" = true)
  ∧ (isExpanded (expandAncestors "/a/b/c.txt" E) "/a/b/c.txt"
       = isExpanded E "/a/b/c.txt")
  ∧ (("/a" : String) ∈ expandAncestors "/a/b/c.txt" E ↔ ("/a" : String) ∈ E) := by
  have hE : expandAncestors "/a/b/c.txt" E = insert "a/b" (insert "a" (insert "" E)) := rfl
  have h1 : ("/a/b/c.txt" : String) ≠ "a/b" := by decide
  have h2 : ("/a/b/c.txt" : String) ≠ "a" := by decide
  have h3 : ("/a/b/c.txt" : String) ≠ "" := by decide
  have h4 : ("/a" : String) ≠ "a/b" := by decide
  have h5 : ("/a" : String) ≠ "a" := by decide
  have h6 : ("/a" : String) ≠ "" := by decide
  refine ⟨?_, ?_, ?_, ?_, ?_⟩
  · rw [hE]; simp [Finset.mem_insert]; tauto
  · simp [hE, isExpanded, Finset.mem_insert]
  · simp [hE, isExpanded, Finset.mem_insert]
  · simp [hE, isExpanded, Finset.mem_insert, h1, h2, h3]
  · simp [hE, Finset.mem_insert, h4, h5, h6]

/-- C4 counterexample: activating a search result whose document path is
"/a/b/c.txt" does not insert the proper ancestor "/a" into the expansion
set (it inserts "a" instead), so the corresponding tree nodes — whose paths
carry the leading slash — are not expanded. -/
theorem handleResultClick_counterexample :
    isExpanded (handleResultClick ⟨initAppState, []⟩ cResult).app.expandedPaths "/a" = false
  ∧ isExpanded (handleResultClick ⟨initAppState, []⟩ cResult).app.expandedPaths "a" = true := by
  decide

/-- C4 (amended): activating a search result performs, in one synchronous
handler that issues no request: `selectedFilePath := result.document.path`;
`previewDocument := some result.document` (set directly from the embedded
document); and the insertion into the expansion set of exactly the strings
`ancestorInserts result.document.path` — the separator-skipping joins of the
leading path parts, which for an absolute path are the proper ancestors with
the leading slash dropped, plus the empty string, not the proper ancestors
themselves. Every other field of the state is unchanged. -/
theorem handleResultClick_amended (t : TracedState) (r : SearchResult) (x : String) :
    ((handleResultClick t r).app.selectedFilePath = r.document.path)
  ∧ ((handleResultClick t r).app.previewDocument = some r.document)
  ∧ ((handleResultClick t r).docRequests = t.docRequests)
  ∧ (x ∈ (handleResultClick t r).app.expandedPaths
       ↔ x ∈ ancestorInserts r.document.path ∨ x ∈ t.app.expandedPaths)
  ∧ ((handleResultClick t r).app.searchQuery = t.app.searchQuery)
  ∧ ((handleResultClick t r).app.searchResults = t.app.searchResults)
  ∧ ((handleResultClick t r).app.isSearching = t.app.isSearching)
  ∧ ((handleResultClick t r).app.fileTree = t.app.fileTree) :=
  ⟨rfl, rfl, rfl, mem_expandAncestors r.document.path t.app.expandedPaths x,
   rfl, rfl, rfl, rfl⟩

/-- C2: on every render the main panel is decided by a strict first-match
priority order: Preview if a preview document is set; else Loading while a
search is in flight; else Results when the result list is non-empty; else
NoResults when the query text is non-empty; else Welcome. In particular a
set preview document wins even while a search is in flight with non-empty
results. -/
theorem renderMainContent_priority (s : AppState) :
    (∀ d, s.previewDocument = some d → renderMainContent s = .preview d)
  ∧ (s.previewDocument = none → s.isSearching = true → renderMainContent s = .loading)
  ∧ (s.previewDocument = none → s.isSearching = false → s.searchResults ≠ [] →
       renderMainContent s = .results s.searchResults s.searchQuery)
  ∧ (s.previewDocument = none → s.isSearching = false → s.searchResults = [] →
       s.searchQuery ≠ "" → renderMainContent s = .noResults s.searchQuery)
  ∧ (s.previewDocument = none → s.isSearching = false → s.searchResults = [] →
       s.searchQuery = "" → renderMainContent s = .welcome)
  ∧ (∀ d, s.previewDocument = some d → s.isSearching = true → s.searchResults ≠ [] →
       renderMainContent s = .preview d) := by
  refine ⟨?_, ?_, ?_, ?_, ?_, ?_⟩
  · intro d h
    simp [renderMainContent, h]
  · intro h hs
    simp [renderMainContent, h, hs]
  · intro h hs hr
    have hl : 0 < s.searchResults.length := List.length_pos.mpr hr
    simp [renderMainContent, h, hs, hl]
  · intro h hs hr hq
    simp [renderMainContent, h, hs, hr, hq]
  · intro h hs hr hq
    simp [renderMainContent, h, hs, hr, hq]
  · intro d h _ _
    simp [renderMainContent, h]

/-- A state in which preview, in-flight search, results and query are all
simultaneously "active". -/
def busyState : AppState :=
  { initAppState with
      previewDocument := some cDoc
      isSearching := true
      searchResults := [cResult]
      searchQuery := "c" }

/-- Witness for C2: in `busyState` all of priority-1..4's conditions hold at
once and the panel shows the preview. -/
theorem renderMainContent_priority_witness :
    renderMainContent busyState = .preview cDoc :=
  (renderMainContent_priority busyState).2.2.2.2.2 cDoc rfl rfl (List.cons_ne_nil _ _)

/-- C10: closing the document preview clears only `previewDocument`; the
query, results, in-flight flag, tree selection, expansion set, tree and
stats are untouched, and the main panel falls back to Loading / Results /
NoResults / Welcome by the same priority order on the remaining state. -/
theorem closePreview_frame (s : AppState) :
    ((closePreview s).previewDocument = none)
  ∧ ((closePreview s).searchQuery = s.searchQuery)
  ∧ ((closePreview s).searchResults = s.searchResults)
  ∧ ((closePreview s).isSearching = s.isSearching)
  ∧ ((closePreview s).selectedFilePath = s.selectedFilePath)
  ∧ ((closePreview s).expandedPaths = s.expandedPaths)
  ∧ ((closePreview s).fileTree = s.fileTree)
  ∧ ((closePreview s).stats = s.stats)
  ∧ (renderMainContent (closePreview s) =
       if s.isSearching then .loading
       else if 0 < s.searchResults.length then .results s.searchResults s.searchQuery
       else if s.searchQuery ≠ "" then .noResults s.searchQuery
       else .welcome) :=
  ⟨rfl, rfl, rfl, rfl, rfl, rfl, rfl, rfl, rfl⟩

/-- C7: a search submission whose query trims to empty sends no request,
clears the result list, and leaves every other piece of state — in
particular `isSearching` and the query text — unchanged, whatever response
the backend would have produced. -/
theorem handleSearch_empty_query (s : AppState)
    (resp : Except Unit (Option (List SearchResult)))
    (h : jsTrim s.searchQuery = "") :
    ((handleSearch s resp).2 = false)
  ∧ ((handleSearch s resp).1.searchResults = [])
  ∧ ((handleSearch s resp).1.isSearching = s.isSearching)
  ∧ ((handleSearch s resp).1.searchQuery = s.searchQuery)
  ∧ ((handleSearch s resp).1.previewDocument = s.previewDocument)
  ∧ ((handleSearch s resp).1.selectedFilePath = s.selectedFilePath)
  ∧ ((handleSearch s resp).1.expandedPaths = s.expandedPaths) := by
  simp [handleSearch, h]

/-- A state whose query is whitespace only. -/
def wsState : AppState := { initAppState with searchQuery := "   " }

/-- Witness for C7 at the whitespace query "   " with a would-be successful
response: no request, results cleared, isSearching untouched. -/
theorem handleSearch_empty_query_witness :
    jsTrim wsState.searchQuery = ""
  ∧ ((handleSearch wsState (.ok (some [cResult]))).2 = false)
  ∧ ((handleSearch wsState (.ok (some [cResult]))).1.searchResults = [])
  ∧ ((handleSearch wsState (.ok (some [cResult]))).1.isSearching = wsState.isSearching) :=
  ⟨by decide,
   (handleSearch_empty_query wsState (.ok (some [cResult])) (by decide)).1,
   (handleSearch_empty_query wsState (.ok (some [cResult])) (by decide)).2.1,
   (handleSearch_empty_query wsState (.ok (some [cResult])) (by decide)).2.2.1⟩

/-- A state holding previous, non-empty search results for query "c". -/
def staleState : AppState :=
  { initAppState with searchQuery := "c", searchResults := [cResult] }

/-- C6 counterexample: when a search request fails, the previous non-empty
result list is not kept — the handler clears it to []. -/
theorem handleSearch_failure_counterexample :
    ((handleSearch staleState (.error ())).1.searchResults = [])
  ∧ staleState.searchResults ≠ [] := by
  constructor
  · rfl
  · simp [staleState]

/-- C6 (amended): a failed tree load keeps the previous tree (or none) and
only clears the loading flag; a failed stats load changes nothing; but a
failed search submission does not leave the result model unchanged — it
clears the result list to [] and ends with `isSearching` false. Every
handler is total on its failure case (the error is caught and logged), so
no failure crashes the view. -/
theorem network_failure_amended (s : AppState) :
    ((loadFileTree s (.error ())).fileTree = s.fileTree)
  ∧ ((loadFileTree s (.error ())).isLoading = false)
  ∧ ((loadFileTree s (.error ())).searchResults = s.searchResults)
  ∧ (loadStats s (.error ()) = s)
  ∧ (jsTrim s.searchQuery ≠ "" →
       ((handleSearch s (.error ())).1.searchResults = []
      ∧ (handleSearch s (.error ())).1.isSearching = false)) := by
  refine ⟨rfl, rfl, rfl, rfl, ?_⟩
  intro h
  simp [handleSearch, h]

/-- Witness for C6 (amended): at `staleState` (query "c", previous results
non-empty) a failed search empties the results, and a failed tree load
keeps the tree. -/
theorem network_failure_amended_witness :
    jsTrim staleState.searchQuery ≠ ""
  ∧ ((handleSearch staleState (.error ())).1.searchResults = [])
  ∧ ((loadFileTree staleState (.error ())).fileTree = staleState.fileTree) :=
  ⟨by decide,
   ((network_failure_amended staleState).2.2.2.2 (by decide)).1,
   (network_failure_amended staleState).1⟩

/-- C8 counterexample: an invocation of `triggerRescan` whose scan POST
fails schedules no reload at all — the fixed-delay reload is conditional on
the awaited scan request succeeding, not unconditional. -/
theorem triggerRescan_counterexample :
    ((triggerRescan ⟨[], 0, 0⟩ (.error ())).pendingReloads = [])
  ∧ (fireRescanTimer (triggerRescan ⟨[], 0, 0⟩ (.error ())) = ⟨[], 0, 0⟩) :=
  ⟨rfl, rfl⟩

/-- C8 (amended): `triggerRescan` awaits the scan POST; on success it
appends one 2000 ms reload timer without cancelling pending ones — so a
second invocation before the delay elapses simply yields two independent
timers; on failure it logs and schedules nothing. Every timer that fires
performs one tree reload and one stats reload. -/
theorem triggerRescan_amended (st : RescanState) (d : Nat) (rest : List Nat) :
    ((triggerRescan st (.ok ())).pendingReloads = st.pendingReloads ++ [2000])
  ∧ ((triggerRescan (triggerRescan st (.ok ())) (.ok ())).pendingReloads
       = st.pendingReloads ++ [2000, 2000])
  ∧ (triggerRescan st (.error ()) = st)
  ∧ (st.pendingReloads = d :: rest →
       fireRescanTimer st = ⟨rest, st.treeReloads + 1, st.statsReloads + 1⟩) := by
  refine ⟨rfl, by simp [triggerRescan], rfl, ?_⟩
  rcases st with ⟨pr, tr, sr⟩
  intro h
  rcases pr with _ | ⟨d0, rest0⟩
  · cases h
  · cases h
    rfl

/-- Witness for C8 (amended): one pending 2000 ms timer fires into exactly
one tree reload and one stats reload. -/
theorem triggerRescan_amended_witness :
    ((⟨[2000], 0, 0⟩ : RescanState).pendingReloads = 2000 :: [])
  ∧ (fireRescanTimer ⟨[2000], 0, 0⟩ = ⟨[], 1, 1⟩) :=
  ⟨rfl, (triggerRescan_amended ⟨[2000], 0, 0⟩ 2000 []).2.2.2 rfl⟩

/-- C9: when the backend reports no document for the resolved relative path
— the node's path with the fixed corpus-root prefix stripped — the
resolution step leaves `previewDocument` exactly as it was and surfaces
nothing else, while `selectedFilePath` has already been set synchronously
to the clicked node's path, the request having been issued for exactly the
stripped relative path. -/
theorem handleFileSelect_not_found (t : TracedState) (node : FileNode)
    (rest : String) (idx : Nat) (h : node.path = corpusRoot ++ rest) :
    ((appStep t (.selectFile node)).app.selectedFilePath = node.path)
  ∧ ((appStep t (.selectFile node)).docRequests = t.docRequests ++ [rest])
  ∧ ((appStep (appStep t (.selectFile node))
        (.resolveDocument idx (.error ()))).app.previewDocument
      = t.app.previewDocument)
  ∧ ((appStep (appStep t (.selectFile node))
        (.resolveDocument idx (.error ()))).app.selectedFilePath
      = node.path) := by
  refine ⟨rfl, ?_, rfl, rfl⟩
  simp [appStep, h, jsReplaceFirst_append]

/-- A file node under the corpus root. -/
def rNode : FileNode := .node "/var/www/html/MPK/doc/r/x.txt" "x.txt" .file []

/-- Witness for C9: selecting `rNode` requests "r/x.txt"; a not-found
response leaves the preview unset while the selection sticks. -/
theorem handleFileSelect_not_found_witness :
    (rNode.path = corpusRoot ++ "r/x.txt")
  ∧ ((appStep (appStep ⟨initAppState, []⟩ (.selectFile rNode))
        (.resolveDocument 0 (.error ()))).app.previewDocument
      = (⟨initAppState, []⟩ : TracedState).app.previewDocument)
  ∧ ((appStep ⟨initAppState, []⟩ (.selectFile rNode)).docRequests
      = ["r/x.txt"]) :=
  ⟨rfl,
   (handleFileSelect_not_found ⟨initAppState, []⟩ rNode "r/x.txt" 0 rfl).2.2.1,
   (handleFileSelect_not_found ⟨initAppState, []⟩ rNode "r/x.txt" 0 rfl).2.1⟩

/-- The node and document fixtures of the selection race. -/
def nodeA : FileNode := .node "/var/www/html/MPK/doc/a.txt" "a.txt" .file []

def nodeB : FileNode := .node "/var/www/html/MPK/doc/b.txt" "b.txt" .file []

def docA : Document :=
  { id := "dA"
    name := "a.txt"
    relative_path := "a.txt"
    path := "/var/www/html/MPK/doc/a.txt"
    file_type := "txt"
    size := 1
    updated_at := "2024-01-01"
    content := some "A" }

def docB : Document :=
  { id := "dB"
    name := "b.txt"
    relative_path := "b.txt"
    path := "/var/www/html/MPK/doc/b.txt"
    file_type := "txt"
    size := 1
    updated_at := "2024-01-01"
    content := some "B" }

/-- The out-of-order trace: select nodeA, select nodeB, nodeB's document
(request 1) arrives, then nodeA's document (request 0) arrives late. -/
def raceTrace : List AppEvent :=
  [.selectFile nodeA, .selectFile nodeB,
   .resolveDocument 1 (.ok docB), .resolveDocument 0 (.ok docA)]

/-- C1 (code bug): `handleFileSelect` applies any resolved document without
checking which request it answers, so on the trace select(A); select(B);
B's fetch resolves; A's fetch resolves late, the final preview is docA —
the stale resolution of nodeA overwrites nodeB's, although the last
`selectFile` call was for nodeB (whose path the selection still shows). -/
theorem selectFile_race_bug :
    ((appRun ⟨initAppState, []⟩ raceTrace).app.previewDocument = some docA)
  ∧ docA ≠ docB
  ∧ ((appRun ⟨initAppState, []⟩ raceTrace).docRequests = ["a.txt", "b.txt"])
  ∧ ((appRun ⟨initAppState, []⟩ raceTrace).app.selectedFilePath = nodeB.path) := by
  refine ⟨rfl, by decide, ?_, rfl⟩
  rfl
